import Mathlib

/-!
Verification of the terminal Jeopardy game (`jeopardy_game.py`).

Python strings are modelled as `List Char`.  The string primitives used by
the program (`str.lower`, `str.strip`, `str.split`, `str.replace` and
`difflib.SequenceMatcher.ratio`) are embedded below, following the CPython
implementations.  Notes on fidelity:

* `str.lower` is modelled on the basic-latin range (codepoints 65-90 map to
  97-122, everything else is fixed); case mappings of non-ASCII letters are
  modelled as the identity.
* Whitespace is the full set of codepoints recognised by Python
  `str.strip()` / `str.split()`.
* `SequenceMatcher` is embedded with `isjunk = None` and the default
  `autojunk = True`, exactly as the source constructs it: the main
  block-search skips popular elements of `b` (elements occurring more than
  `len b / 100 + 1` times when `len b >= 200`), and the found block is then
  extended on both sides by plain character matches.
* The float test `ratio() > 0.8` is modelled by the exact rational
  comparison `10 * M > 4 * T` (with `ratio = 1` when `T = 0`, as in
  `difflib._calculate_ratio`); for `T > 0` the rational gap between any
  value `2M/T` and `4/5` is at least `2/(5T)`, far above double rounding
  error, so the comparisons agree.
-/

set_option maxRecDepth 10000

namespace Jeopardy

/-- Python whitespace: the codepoints for which `str.isspace()` holds and on
which `str.strip()` / `str.split()` split. -/
def pyIsSpace (c : Char) : Bool :=
  decide (c.toNat = 32 ∨ (9 ≤ c.toNat ∧ c.toNat ≤ 13) ∨ (28 ≤ c.toNat ∧ c.toNat ≤ 31) ∨
    c.toNat = 133 ∨ c.toNat = 160 ∨ c.toNat = 5760 ∨ (8192 ≤ c.toNat ∧ c.toNat ≤ 8202) ∨
    c.toNat = 8232 ∨ c.toNat = 8233 ∨ c.toNat = 8239 ∨ c.toNat = 8287 ∨ c.toNat = 12288)

/-- `str.lower` on one character (basic-latin case mapping). -/
def pyLowerC (c : Char) : Char :=
  if 65 ≤ c.toNat ∧ c.toNat ≤ 90 then Char.ofNat (c.toNat + 32) else c

/-- `s.lower()`. -/
def pyLower (s : List Char) : List Char := s.map pyLowerC

/-- `s.strip()`: remove leading and trailing whitespace. -/
def pyStrip (s : List Char) : List Char :=
  ((s.dropWhile pyIsSpace).reverse.dropWhile pyIsSpace).reverse

/-- The normalisation `s.lower().strip()` applied by `check_answer` to both
of its arguments (source lines 70-71). -/
def normalize (s : List Char) : List Char := pyStrip (pyLower s)

/-- Helper for `pySplit`: accumulates the current word (reversed). -/
def pySplitAux : List Char → List Char → List (List Char)
  | cur, [] => if cur.isEmpty then [] else [cur.reverse]
  | cur, c :: cs =>
    if pyIsSpace c then
      if cur.isEmpty then pySplitAux [] cs else cur.reverse :: pySplitAux [] cs
    else pySplitAux (c :: cur) cs

/-- `s.split()` (no separator): split on runs of whitespace, no empty words. -/
def pySplit (s : List Char) : List (List Char) := pySplitAux [] s

/-- `s.split(sep)` for a one-character separator `sep`, keeping empty parts
(used by the source as `split('\n')`). -/
def pySplitOn (sep : Char) : List Char → List (List Char)
  | [] => [[]]
  | c :: cs =>
    if c = sep then [] :: pySplitOn sep cs
    else
      match pySplitOn sep cs with
      | [] => [[c]]
      | w :: ws => (c :: w) :: ws

/-- Does `pat` occur at the head of `s`? -/
def startsWithL : List Char → List Char → Bool
  | [], _ => true
  | _ :: _, [] => false
  | x :: xs, y :: ys => decide (x = y) && startsWithL xs ys

/-- Fuel-driven worker for `pyReplaceDel`: remove non-overlapping occurrences
of `old` scanning left to right.  The fuel only needs to exceed the length
of the remaining string (each step shortens it when `old` is non-empty). -/
def removeOccsAux (old : List Char) : Nat → List Char → List Char
  | 0, s => s
  | _ + 1, [] => []
  | fuel + 1, c :: cs =>
    if startsWithL old (c :: cs) then removeOccsAux old fuel (List.drop old.length (c :: cs))
    else c :: removeOccsAux old fuel cs

/-- `s.replace(old, '')`: delete every non-overlapping occurrence of `old`,
scanning left to right (for empty `old`, Python returns `s` unchanged when
the replacement is empty). -/
def pyReplaceDel (old s : List Char) : List Char :=
  if old.isEmpty then s else removeOccsAux old (s.length + 1) s

/-! ### difflib.SequenceMatcher -/

/-- Length of the longest common run of `a` and `b` taken from their heads,
where characters are compared by `m`. -/
def commonRun (m : Char → Char → Bool) : List Char → List Char → Nat
  | x :: xs, y :: ys => if m x y then commonRun m xs ys + 1 else 0
  | _, _ => 0

/-- `difflib` autojunk: when `b` has at least 200 elements, the elements
occurring more than `len b / 100 + 1` times are dropped from the index
`b2j` used by the main loop of `find_longest_match`. -/
def isPopular (b : List Char) (c : Char) : Bool :=
  decide (200 ≤ b.length) && decide (b.length / 100 + 1 < b.count c)

/-- The run of matching characters ending at positions `(i, j)` (inclusive)
and starting no earlier than `(alo, blo)`; this is the value `j2len[j]`
maintained by `find_longest_match`. -/
def runEndingAt (m : Char → Char → Bool) (a b : List Char) (alo blo i j : Nat) : Nat :=
  commonRun m ((a.take (i + 1)).drop alo).reverse ((b.take (j + 1)).drop blo).reverse

/-- `SequenceMatcher.find_longest_match(alo, ahi, blo, bhi)` with
`bjunk = ∅` (the source passes `isjunk = None`).  The main double loop keeps
the first block, in scan order, reaching the maximal size, skipping popular
elements of `b`; the block is then extended on both ends by plain equality
(the non-junk extension loops of difflib; the junk extension loops never
fire since `bjunk` is empty).  Returns `(besti, bestj, bestsize)`. -/
def findLongestMatch (a b : List Char) (junk : Char → Bool) (alo ahi blo bhi : Nat) :
    Nat × Nat × Nat :=
  let m : Char → Char → Bool := fun x y => decide (x = y) && !(junk y)
  let best :=
    (List.range' alo (ahi - alo)).foldl
      (fun best i =>
        (List.range' blo (bhi - blo)).foldl
          (fun best j =>
            let k := runEndingAt m a b alo blo i j
            if best.2.2 < k then (i + 1 - k, j + 1 - k, k) else best)
          best)
      (alo, blo, 0)
  let eq : Char → Char → Bool := fun x y => decide (x = y)
  let e1 := commonRun eq ((a.take best.1).drop alo).reverse ((b.take best.2.1).drop blo).reverse
  let bi := best.1 - e1
  let bj := best.2.1 - e1
  let bs := best.2.2 + e1
  let e2 := commonRun eq ((a.take ahi).drop (bi + bs)) ((b.take bhi).drop (bj + bs))
  (bi, bj, bs + e2)

/-- Sum of the sizes of all matching blocks found by
`get_matching_blocks` restricted to the window `[alo, ahi) × [blo, bhi)`
(the later sorting and merging of adjacent blocks in difflib do not change
this sum).  Fuel-driven; fuel `(ahi - alo) + (bhi - blo) + 1` suffices since
every recursive window is strictly smaller. -/
def matchTotal (a b : List Char) (junk : Char → Bool) :
    Nat → Nat → Nat → Nat → Nat → Nat
  | 0, _, _, _, _ => 0
  | fuel + 1, alo, ahi, blo, bhi =>
    let r := findLongestMatch a b junk alo ahi blo bhi
    if r.2.2 = 0 then 0
    else
      r.2.2 + matchTotal a b junk fuel alo r.1 blo r.2.1 +
        matchTotal a b junk fuel (r.1 + r.2.2) ahi (r.2.1 + r.2.2) bhi

/-- `M`: the number of matching characters reported by
`SequenceMatcher(None, a, b).get_matching_blocks()`. -/
def smMatches (a b : List Char) : Nat :=
  matchTotal a b (isPopular b) (a.length + b.length + 1) 0 a.length 0 b.length

/-- The test `SequenceMatcher(None, a, b).ratio() > 0.8` of source line 79,
as the exact rational comparison `2M/T > 4/5` (with ratio `1` when both
strings are empty, as in `difflib._calculate_ratio`). -/
def similarityGT (a b : List Char) : Bool :=
  if a.length + b.length = 0 then true
  else decide (4 * (a.length + b.length) < 10 * smMatches a b)

/-! ### check_answer -/

/-- The important-words test of source lines 82-90: the words of the correct
answer longer than 3 characters form a non-empty set contained in the set of
the words of the player answer. -/
def subsetImportant (p c : List Char) : Bool :=
  let playerWords := pySplit p
  let importantWords := (pySplit c).filter (fun w => decide (3 < w.length))
  !importantWords.isEmpty && importantWords.all (fun w => decide (w ∈ playerWords))

/-- Body of `check_answer` after both inputs have been normalised:
exact match, then similarity ratio, then important-words subset. -/
def checkCore (p c : List Char) : Bool :=
  if p = c then true
  else if similarityGT p c then true
  else subsetImportant p c

/-- `JeopardyGame.check_answer` (source lines 59-92). -/
def check_answer (player_answer correct_answer : List Char) : Bool :=
  checkCore (normalize player_answer) (normalize correct_answer)

/-! ### generate_question -/

/-- A question/answer pair as returned by `generate_question`. -/
structure QA where
  question : List Char
  answer : List Char
deriving DecidableEq

/-- Outcome of the HTTP call made by `generate_question`: either some
exception was raised inside the `try` block (network error, non-2xx status
via `raise_for_status`, JSON or key error), or the call produced the text
stored under the `response` key of the JSON result. -/
inductive GenOutcome where
  | failure
  | success (responseText : List Char)
deriving DecidableEq

/-- The fallback pair built in both error branches of `generate_question`:
question `f"This (category) question is worth $(points)"`, answer
`"backup"`. -/
def fallbackQA (category : List Char) (points : Nat) : QA :=
  { question := ("This ".toList) ++ category ++ (" question is worth $".toList) ++
      Nat.toDigits 10 points,
    answer := "backup".toList }

/-- `JeopardyGame.generate_question` (source lines 17-57), with the HTTP
interaction abstracted as a `GenOutcome` input.  On success the response
text is stripped and split on newlines; with at least two lines the first
line (stripped) is the question and the second line, stripped, lowercased,
with every occurrence of `"answer:"` and then of `"a:"` deleted and
stripped again, is the answer; otherwise the fallback pair is returned. -/
def generate_question (category : List Char) (points : Nat) (out : GenOutcome) : QA :=
  match out with
  | .failure => fallbackQA category points
  | .success txt =>
    let lines := pySplitOn '\n' (pyStrip txt)
    if 2 ≤ lines.length then
      { question := pyStrip (lines.getD 0 []),
        answer := pyStrip (pyReplaceDel ("a:".toList)
          (pyReplaceDel ("answer:".toList) (pyLower (pyStrip (lines.getD 1 []))))) }
    else fallbackQA category points

/-- The failure cases named by the specification: the call raised, or the
parsed response had fewer than two lines. -/
def isFailureCase : GenOutcome → Bool
  | .failure => true
  | .success txt => decide ((pySplitOn '\n' (pyStrip txt)).length < 2)

/-- Modelled from the claim wording (not from the source): strip a single
leading `"answer:"` or `"a:"` prefix. -/
def claimLeadingStrip (s : List Char) : List Char :=
  if startsWithL ("answer:".toList) s then s.drop 7
  else if startsWithL ("a:".toList) s then s.drop 2
  else s

/-- Modelled from the claim wording (not from the source): the second
response line lowercased, with a leading `"answer:"` or `"a:"` prefix
stripped, and trimmed of surrounding whitespace. -/
def claimAnswerNorm (line : List Char) : List Char :=
  pyStrip (claimLeadingStrip (pyLower line))

/-! ### The board and the game state -/

/-- One board cell: question, answer, answered flag. -/
structure Cell where
  question : List Char
  answer : List Char
  answered : Bool
deriving DecidableEq

/-- `self.categories` (source line 12). -/
def categories : List (List Char) :=
  ["Science".toList, "History".toList, "Geography".toList, "Arts".toList, "Sports".toList]

/-- `self.points` (source line 13). -/
def points : List Nat := [100, 200, 300, 400, 500]

/-- The board: the nested dict `self.board`, as an association list from
category to an association list from point value to cell. -/
def Board : Type := List (List Char × List (Nat × Cell))

/-- `JeopardyGame.initialize_board` (source lines 94-108), with
`generate_question` abstracted as a question source `gen` called once per
(category, points) pair. -/
def initialize_board (gen : List Char → Nat → QA) : Board :=
  categories.map (fun cat =>
    (cat, points.map (fun p =>
      (p, { question := (gen cat p).question, answer := (gen cat p).answer,
            answered := false }))))

/-- Dict lookup in one board row. -/
def lookupRow : List (Nat × Cell) → Nat → Option Cell
  | [], _ => none
  | e :: es, p => if e.fst = p then some e.snd else lookupRow es p

/-- Dict lookup `self.board[category][points]`. -/
def lookupCell : Board → List Char → Nat → Option Cell
  | [], _, _ => none
  | e :: es, cat, p => if e.fst = cat then lookupRow e.snd p else lookupCell es cat p

/-- Total number of cells on the board. -/
def numCells (b : Board) : Nat := (b.map (fun e => e.snd.length)).sum

/-- `self.board[category][points]["answered"] = True` (source line 169). -/
def setAnswered (b : Board) (cat : List Char) (p : Nat) : Board :=
  b.map (fun e =>
    if e.fst = cat then
      (e.fst, e.snd.map (fun q =>
        if q.fst = p then (q.fst, { question := q.snd.question, answer := q.snd.answer,
                                    answered := true })
        else q))
    else e)

/-- The session state: board plus running signed score. -/
structure GameState where
  board : Board
  score : Int

/-- The state transition of one played turn of `JeopardyGame.play_turn`
(source lines 132-171), with the interactive selections (category, points,
player answer) as parameters.  The source lowercases both the prompt input
and the stored answer before calling `check_answer`; a missing cell leaves
the state unchanged (the prompts only offer existing unanswered cells). -/
def play_turn (st : GameState) (cat : List Char) (p : Nat) (ans : List Char) : GameState :=
  match lookupCell st.board cat p with
  | none => st
  | some cell =>
    if check_answer (pyLower ans) (pyLower cell.answer) then
      { board := setAnswered st.board cat p, score := st.score + p }
    else
      { board := setAnswered st.board cat p, score := st.score - p }

/-! ### Concrete fixtures used by witnesses -/

/-- A concrete cell used to instantiate the turn theorem. -/
def demoCell : Cell := { question := [], answer := "paris".toList, answered := false }

/-- A one-cell board used to instantiate the turn theorem. -/
def demoBoard : Board := [("Science".toList, [(100, demoCell)])]

/-- A concrete session state used to instantiate the turn theorem. -/
def demoState : GameState := { board := demoBoard, score := 0 }

/-- A trivial question source used to instantiate the board theorem. -/
def demoGen : List Char → Nat → QA := fun _ _ => { question := [], answer := [] }

end Jeopardy

/-! ## Helper lemmas -/

namespace Jeopardy

theorem charToNat_ofNat_of_lt {n : Nat} (h : n < 55296) : (Char.ofNat n).toNat = n := by
  have hv : n.isValidChar := Or.inl h
  rw [Char.ofNat, dif_pos hv]
  rfl

theorem pyLowerC_idem (c : Char) : pyLowerC (pyLowerC c) = pyLowerC c := by
  unfold pyLowerC
  by_cases h : 65 ≤ c.toNat ∧ c.toNat ≤ 90
  · rw [if_pos h, if_neg]
    rw [charToNat_ofNat_of_lt (by omega)]
    omega
  · rw [if_neg h, if_neg h]

theorem pyIsSpace_pyLowerC (c : Char) : pyIsSpace (pyLowerC c) = pyIsSpace c := by
  unfold pyIsSpace pyLowerC
  by_cases h : 65 ≤ c.toNat ∧ c.toNat ≤ 90
  · rw [if_pos h, charToNat_ofNat_of_lt (by omega), decide_eq_decide]
    omega
  · rw [if_neg h]

theorem pyLower_idem (s : List Char) : pyLower (pyLower s) = pyLower s := by
  unfold pyLower
  rw [List.map_map]
  exact List.map_congr_left (fun c _ => pyLowerC_idem c)

theorem dropWhile_idem (p : Char → Bool) (l : List Char) :
    (l.dropWhile p).dropWhile p = l.dropWhile p := by
  induction l with
  | nil => rfl
  | cons a l ih =>
    by_cases h : p a
    · rw [List.dropWhile_cons_of_pos h, ih]
    · rw [List.dropWhile_cons_of_neg h, List.dropWhile_cons_of_neg h]

theorem dropWhile_head_false {p : Char → Bool} {x : Char} {t : List Char} :
    ∀ l : List Char, l.dropWhile p = x :: t → p x = false := by
  intro l
  induction l with
  | nil => intro h; simp [List.dropWhile] at h
  | cons a l ih =>
    intro h
    by_cases ha : p a
    · rw [List.dropWhile_cons_of_pos ha] at h
      exact ih h
    · rw [List.dropWhile_cons_of_neg ha] at h
      cases h
      simpa using ha

theorem pyLower_pyStrip (s : List Char) : pyLower (pyStrip s) = pyStrip (pyLower s) := by
  unfold pyLower pyStrip
  have hps : pyIsSpace ∘ pyLowerC = pyIsSpace := funext pyIsSpace_pyLowerC
  have hdw : ∀ l : List Char,
      List.dropWhile pyIsSpace (l.map pyLowerC) = (List.dropWhile pyIsSpace l).map pyLowerC := by
    intro l
    rw [List.dropWhile_map, hps]
  rw [hdw, ← List.map_reverse, hdw, List.map_reverse]

theorem pyStrip_idem (s : List Char) : pyStrip (pyStrip s) = pyStrip s := by
  unfold pyStrip
  generalize hu : s.dropWhile pyIsSpace = u
  generalize hv : u.reverse.dropWhile pyIsSpace = v
  have h1 : v.reverse.dropWhile pyIsSpace = v.reverse := by
    cases hrv : v.reverse with
    | nil => rfl
    | cons x xs =>
      have hsplit : List.takeWhile pyIsSpace u.reverse ++ v = u.reverse := by
        rw [← hv]
        exact List.takeWhile_append_dropWhile pyIsSpace u.reverse
      obtain ⟨t, hu_eq⟩ : ∃ t, u = v.reverse ++ t := by
        refine ⟨(List.takeWhile pyIsSpace u.reverse).reverse, ?_⟩
        conv_lhs => rw [← List.reverse_reverse u, ← hsplit]
        rw [List.reverse_append]
      have hu2 : s.dropWhile pyIsSpace = x :: (xs ++ t) := by
        rw [hu, hu_eq, hrv]
        rfl
      have hx : pyIsSpace x = false := dropWhile_head_false s hu2
      exact List.dropWhile_cons_of_neg (by simp [hx])
  rw [h1, List.reverse_reverse]
  have h2 : v.dropWhile pyIsSpace = v := by
    rw [← hv]
    exact dropWhile_idem _ _
  rw [h2]

theorem normalize_idem (s : List Char) : normalize (normalize s) = normalize s := by
  unfold normalize
  rw [pyLower_pyStrip, pyLower_idem, pyStrip_idem]

theorem normalize_pyLower (s : List Char) : normalize (pyLower s) = normalize s := by
  unfold normalize
  rw [pyLower_idem]

theorem check_answer_pyLower (p c : List Char) :
    check_answer (pyLower p) (pyLower c) = check_answer p c := by
  unfold check_answer
  rw [normalize_pyLower, normalize_pyLower]

end Jeopardy

namespace Jeopardy

theorem subsetImportant_iff (p c : List Char) :
    subsetImportant p c = true ↔
      ((∃ w ∈ pySplit c, 3 < w.length) ∧
       ∀ w ∈ pySplit c, 3 < w.length → w ∈ pySplit p) := by
  unfold subsetImportant
  simp only [Bool.and_eq_true, Bool.not_eq_true', List.isEmpty_eq_false, ne_eq,
    List.filter_eq_nil_iff, List.all_eq_true, List.mem_filter, decide_eq_true_eq, not_forall]
  constructor
  · rintro ⟨h1, h2⟩
    push_neg at h1
    obtain ⟨w, hw, hlen⟩ := h1
    exact ⟨⟨w, hw, hlen⟩, fun w hw hlen => h2 w ⟨hw, hlen⟩⟩
  · rintro ⟨⟨w, hw, hlen⟩, h2⟩
    refine ⟨?_, fun w hw => h2 w hw.1 hw.2⟩
    push_neg
    exact ⟨w, hw, hlen⟩

theorem foldl_keep {α β : Type} (l : List β) (init : α) :
    List.foldl (fun b _ => b) init l = init := by
  induction l generalizing init with
  | nil => rfl
  | cons a l ih => exact ih init

theorem commonRun_nil_right (m : Char → Char → Bool) (l : List Char) :
    commonRun m l [] = 0 := by
  cases l <;> rfl

theorem smMatches_nil_right (a : List Char) : smMatches a [] = 0 := by
  show matchTotal a [] (isPopular []) (a.length + 0 + 1) 0 a.length 0 0 = 0
  rw [matchTotal]
  have hflm : findLongestMatch a [] (isPopular []) 0 a.length 0 0 = (0, 0, 0) := by
    unfold findLongestMatch
    simp only [Nat.sub_zero, List.range'_zero, List.foldl_nil]
    rw [foldl_keep]
    simp [commonRun_nil_right]
  rw [hflm]
  rfl

end Jeopardy

namespace Jeopardy

theorem similarityGT_nil_right (a : List Char) (h : a ≠ []) :
    similarityGT a [] = false := by
  unfold similarityGT
  rw [if_neg (by simp [List.length_eq_zero, h]), smMatches_nil_right]
  simp

/-- C1: check_answer accepts exactly when, after normalising both inputs by
lowercasing and stripping outer whitespace, the strings are equal, or their
SequenceMatcher similarity ratio exceeds 0.8, or the set of words of the
normalised correct answer longer than 3 characters is non-empty and
contained in the word set of the normalised player answer. -/
theorem check_answer_characterization (p c : List Char) :
    check_answer p c = true ↔
      (normalize p = normalize c ∨
       similarityGT (normalize p) (normalize c) = true ∨
       ((∃ w ∈ pySplit (normalize c), 3 < w.length) ∧
        ∀ w ∈ pySplit (normalize c), 3 < w.length → w ∈ pySplit (normalize p))) := by
  unfold check_answer checkCore
  by_cases h1 : normalize p = normalize c
  · rw [if_pos h1]
    exact iff_of_true rfl (Or.inl h1)
  · rw [if_neg h1]
    by_cases h2 : similarityGT (normalize p) (normalize c) = true
    · rw [if_pos h2]
      exact iff_of_true rfl (Or.inr (Or.inl h2))
    · rw [if_neg h2, subsetImportant_iff]
      constructor
      · intro h3
        exact Or.inr (Or.inr h3)
      · rintro (h | h | h)
        · exact absurd h h1
        · exact absurd h h2
        · exact h

/-- C2: check_answer is a total boolean function on every pair of strings,
empty or not; the shallow embedding has no error outcome at all, so the
only possible results are true and false. -/
theorem check_answer_total (p c : List Char) :
    check_answer p c = true ∨ check_answer p c = false := by
  cases check_answer p c
  · exact Or.inr rfl
  · exact Or.inl rfl

/-- C7: check_answer rejects the unrelated and partial fixture pairs. -/
theorem check_answer_rejects_fixtures :
    check_answer ("mars".toList) ("venus".toList) = false ∧
    check_answer ("pacific ocean".toList) ("atlantic ocean".toList) = false ∧
    check_answer ("new".toList) ("new york city".toList) = false ∧
    check_answer ("cat".toList) ("category".toList) = false := by
  refine ⟨by decide, by decide, by decide, by decide⟩

/-- C8: check_answer accepts the near-miss typo fixtures through the
similarity branch. -/
theorem check_answer_accepts_typos :
    check_answer ("mount everst".toList) ("mount everest".toList) = true ∧
    check_answer ("mount everust".toList) ("mount everest".toList) = true := by
  refine ⟨by decide, by decide⟩

/-- C9: check_answer is insensitive to case and outer whitespace: it agrees
with itself on lowercased and stripped inputs, and in particular accepts
the two fixture pairs. -/
theorem check_answer_case_whitespace_insensitive :
    (∀ p c : List Char,
      check_answer p c = check_answer (pyStrip (pyLower p)) (pyStrip (pyLower c))) ∧
    check_answer ("PARIS".toList) ("paris".toList) = true ∧
    check_answer ("  paris  ".toList) ("paris".toList) = true := by
  refine ⟨fun p c => ?_, by decide, by decide⟩
  show check_answer p c = check_answer (normalize p) (normalize c)
  unfold check_answer
  rw [normalize_idem, normalize_idem]

/-- C10: with an empty correct answer, check_answer accepts exactly the
player answers that normalise to the empty string: the similarity and
important-words branches can never fire. -/
theorem check_answer_empty_correct (p : List Char) :
    check_answer p [] = true ↔ pyStrip (pyLower p) = [] := by
  show checkCore (normalize p) (normalize []) = true ↔ normalize p = []
  have hnil : normalize ([] : List Char) = [] := rfl
  rw [hnil]
  unfold checkCore
  by_cases h : normalize p = []
  · rw [if_pos h]
    exact iff_of_true rfl h
  · rw [if_neg h, if_neg (by rw [similarityGT_nil_right _ h]; simp)]
    have hsub : subsetImportant (normalize p) [] = false := rfl
    rw [hsub]
    exact iff_of_false (by simp) h

end Jeopardy

namespace Jeopardy

/-- C3: on any failure of the generation call — an exception anywhere in
the request/parse path, or a response with fewer than two lines — the
returned pair has the sentinel answer "backup" and a question containing
the topic name and the decimal point value. -/
theorem generate_question_success_eq (cat : List Char) (pts : Nat) (txt : List Char) :
    generate_question cat pts (GenOutcome.success txt) =
      (if 2 ≤ (pySplitOn '\n' (pyStrip txt)).length then
        { question := pyStrip ((pySplitOn '\n' (pyStrip txt)).getD 0 []),
          answer := pyStrip (pyReplaceDel ("a:".toList)
            (pyReplaceDel ("answer:".toList)
              (pyLower (pyStrip ((pySplitOn '\n' (pyStrip txt)).getD 1 []))))) }
      else fallbackQA cat pts) := rfl

theorem generate_question_fallback (cat : List Char) (pts : Nat) (out : GenOutcome)
    (h : isFailureCase out = true) :
    (generate_question cat pts out).answer = "backup".toList ∧
    (∃ l r, (generate_question cat pts out).question = l ++ cat ++ r) ∧
    (∃ l r, (generate_question cat pts out).question = l ++ Nat.toDigits 10 pts ++ r) := by
  have hfb : generate_question cat pts out = fallbackQA cat pts := by
    cases out with
    | failure => rfl
    | success txt =>
      have hlt : (pySplitOn '\n' (pyStrip txt)).length < 2 := by
        simpa [isFailureCase] using h
      rw [generate_question_success_eq, if_neg (by omega)]
  rw [hfb]
  refine ⟨rfl, ⟨"This ".toList, (" question is worth $".toList) ++ Nat.toDigits 10 pts, ?_⟩,
    ⟨("This ".toList) ++ cat ++ (" question is worth $".toList), [], ?_⟩⟩
  · show ("This ".toList) ++ cat ++ (" question is worth $".toList) ++ Nat.toDigits 10 pts =
      ("This ".toList) ++ cat ++ ((" question is worth $".toList) ++ Nat.toDigits 10 pts)
    simp [List.append_assoc]
  · show ("This ".toList) ++ cat ++ (" question is worth $".toList) ++ Nat.toDigits 10 pts =
      ("This ".toList) ++ cat ++ (" question is worth $".toList) ++ Nat.toDigits 10 pts ++ []
    simp

theorem generate_question_fallback_witness :
    isFailureCase GenOutcome.failure = true ∧
    ((generate_question ("Geography".toList) 100 GenOutcome.failure).answer = "backup".toList ∧
     (∃ l r, (generate_question ("Geography".toList) 100 GenOutcome.failure).question =
        l ++ ("Geography".toList) ++ r) ∧
     (∃ l r, (generate_question ("Geography".toList) 100 GenOutcome.failure).question =
        l ++ Nat.toDigits 10 100 ++ r)) :=
  ⟨rfl, generate_question_fallback ("Geography".toList) 100 GenOutcome.failure rfl⟩

/-- C4 counterexample: for the two-line response "What?\nCanada: maybe" the
stored answer is not the second line lowercased with only a leading
"answer:"/"a:" prefix stripped and trimmed — the code deletes every
occurrence of the prefixes, giving "canad maybe" instead of
"canada: maybe". -/
theorem generate_question_answer_leading_counterexample :
    2 ≤ (pySplitOn '\n' (pyStrip ("What?\nCanada: maybe".toList))).length ∧
    (generate_question ("Geography".toList) 100
        (GenOutcome.success ("What?\nCanada: maybe".toList))).answer ≠
      claimAnswerNorm ((pySplitOn '\n' (pyStrip ("What?\nCanada: maybe".toList))).getD 1 []) := by
  refine ⟨by decide, by decide⟩

/-- C4 (amended): for every successfully parsed two-line response the
stored answer is the second line trimmed, lowercased, with every
non-overlapping occurrence of "answer:" deleted, then every occurrence of
"a:" deleted, and trimmed again; in particular the response
"What is the capital of France?\nParis" stores exactly "paris". -/
theorem generate_question_answer_spec (cat : List Char) (pts : Nat) (txt : List Char)
    (h : 2 ≤ (pySplitOn '\n' (pyStrip txt)).length) :
    (generate_question cat pts (GenOutcome.success txt)).answer =
      pyStrip (pyReplaceDel ("a:".toList)
        (pyReplaceDel ("answer:".toList)
          (pyLower (pyStrip ((pySplitOn '\n' (pyStrip txt)).getD 1 []))))) := by
  rw [generate_question_success_eq, if_pos h]

theorem generate_question_answer_spec_witness :
    2 ≤ (pySplitOn '\n' (pyStrip ("What is the capital of France?\nParis".toList))).length ∧
    (generate_question ("Geography".toList) 100
        (GenOutcome.success ("What is the capital of France?\nParis".toList))).answer =
      "paris".toList :=
  ⟨by decide,
   (generate_question_answer_spec ("Geography".toList) 100
      ("What is the capital of France?\nParis".toList) (by decide)).trans (by decide)⟩

end Jeopardy

namespace Jeopardy

theorem lookupRow_mark_same (row : List (Nat × Cell)) (p : Nat) (cell : Cell)
    (h : lookupRow row p = some cell) :
    lookupRow (row.map (fun q =>
        if q.fst = p then (q.fst, { question := q.snd.question, answer := q.snd.answer,
                                    answered := true })
        else q)) p =
      some { question := cell.question, answer := cell.answer, answered := true } := by
  induction row with
  | nil => simp [lookupRow] at h
  | cons e es ih =>
    by_cases he : e.fst = p
    · rw [lookupRow, if_pos he] at h
      injection h with h
      subst h
      simp only [List.map_cons, if_pos he]
      rw [lookupRow, if_pos he]
    · rw [lookupRow, if_neg he] at h
      simp only [List.map_cons, if_neg he]
      rw [lookupRow, if_neg he]
      exact ih h

theorem lookupRow_mark_other (row : List (Nat × Cell)) (p p2 : Nat) (hne : p2 ≠ p) :
    lookupRow (row.map (fun q =>
        if q.fst = p then (q.fst, { question := q.snd.question, answer := q.snd.answer,
                                    answered := true })
        else q)) p2 = lookupRow row p2 := by
  induction row with
  | nil => rfl
  | cons e es ih =>
    by_cases he : e.fst = p
    · simp only [List.map_cons, if_pos he]
      rw [lookupRow, lookupRow, if_neg (by rw [he]; exact fun hc => hne hc.symm),
        if_neg (by rw [he]; exact fun hc => hne hc.symm)]
      exact ih
    · simp only [List.map_cons, if_neg he]
      rw [lookupRow, lookupRow]
      by_cases he2 : e.fst = p2
      · rw [if_pos he2, if_pos he2]
      · rw [if_neg he2, if_neg he2]
        exact ih

theorem lookupCell_setAnswered_same (b : Board) (cat : List Char) (p : Nat) (cell : Cell)
    (h : lookupCell b cat p = some cell) :
    lookupCell (setAnswered b cat p) cat p =
      some { question := cell.question, answer := cell.answer, answered := true } := by
  induction b with
  | nil => simp [lookupCell] at h
  | cons e es ih =>
    by_cases he : e.fst = cat
    · rw [lookupCell, if_pos he] at h
      show lookupCell (_ :: setAnswered es cat p) cat p = _
      rw [setAnswered]  -- no-op, keep structure
      simp only [List.map_cons, if_pos he]
      rw [lookupCell, if_pos he]
      exact lookupRow_mark_same e.snd p cell h
    · rw [lookupCell, if_neg he] at h
      show lookupCell _ cat p = _
      simp only [setAnswered, List.map_cons, if_neg he]
      rw [lookupCell, if_neg he]
      exact ih h

end Jeopardy

namespace Jeopardy

theorem lookupCell_setAnswered_other (b : Board) (cat : List Char) (p : Nat)
    (cat2 : List Char) (p2 : Nat) (hne : ¬(cat2 = cat ∧ p2 = p)) :
    lookupCell (setAnswered b cat p) cat2 p2 = lookupCell b cat2 p2 := by
  induction b with
  | nil => rfl
  | cons e es ih =>
    by_cases he : e.fst = cat
    · simp only [setAnswered, List.map_cons, if_pos he]
      by_cases he2 : e.fst = cat2
      · rw [lookupCell, lookupCell, if_pos he2, if_pos he2]
        have hp2 : p2 ≠ p := by
          intro hp
          exact hne ⟨by rw [← he2, he], hp⟩
        exact lookupRow_mark_other e.snd p p2 hp2
      · rw [lookupCell, lookupCell, if_neg he2, if_neg he2]
        exact ih
    · simp only [setAnswered, List.map_cons, if_neg he]
      by_cases he2 : e.fst = cat2
      · rw [lookupCell, lookupCell, if_pos he2, if_pos he2]
      · rw [lookupCell, lookupCell, if_neg he2, if_neg he2]
        exact ih

theorem setAnswered_cats (b : Board) (cat : List Char) (p : Nat) :
    (setAnswered b cat p).map Prod.fst = b.map Prod.fst := by
  unfold setAnswered
  rw [List.map_map]
  refine List.map_congr_left (fun e _ => ?_)
  by_cases he : e.fst = cat
  · simp [he]
  · simp [he]

theorem setAnswered_rowKeys (b : Board) (cat : List Char) (p : Nat) :
    (setAnswered b cat p).map (fun e => e.snd.map Prod.fst) =
      b.map (fun e => e.snd.map Prod.fst) := by
  unfold setAnswered
  rw [List.map_map]
  refine List.map_congr_left (fun e _ => ?_)
  by_cases he : e.fst = cat
  · simp only [Function.comp, if_pos he]
    rw [List.map_map]
    refine List.map_congr_left (fun q _ => ?_)
    by_cases hq : q.fst = p
    · simp [hq]
    · simp [hq]
  · simp [Function.comp, if_neg he]

/-- C5: a turn played on an existing unanswered cell worth p points adds p
to the score when check_answer accepts the player answer and subtracts p
when it rejects it; the played cell keeps its question and answer and has
its answered flag set to true; every other cell is unchanged, and the
category and point-value key structure of the board is unchanged. -/
theorem play_turn_spec (st : GameState) (cat : List Char) (p : Nat) (ans : List Char)
    (cell : Cell) (hc : lookupCell st.board cat p = some cell)
    (hun : cell.answered = false) :
    ((check_answer ans cell.answer = true →
        (play_turn st cat p ans).score = st.score + p) ∧
     (check_answer ans cell.answer = false →
        (play_turn st cat p ans).score = st.score - p)) ∧
    lookupCell (play_turn st cat p ans).board cat p =
      some { question := cell.question, answer := cell.answer, answered := true } ∧
    (∀ cat2 p2, ¬(cat2 = cat ∧ p2 = p) →
      lookupCell (play_turn st cat p ans).board cat2 p2 = lookupCell st.board cat2 p2) ∧
    (play_turn st cat p ans).board.map Prod.fst = st.board.map Prod.fst ∧
    (play_turn st cat p ans).board.map (fun e => e.snd.map Prod.fst) =
      st.board.map (fun e => e.snd.map Prod.fst) := by
  have hcheck : check_answer (pyLower ans) (pyLower cell.answer) = check_answer ans cell.answer :=
    check_answer_pyLower ans cell.answer
  have hpt : play_turn st cat p ans =
      (if check_answer ans cell.answer then
        { board := setAnswered st.board cat p, score := st.score + p }
      else
        { board := setAnswered st.board cat p, score := st.score - p } : GameState) := by
    unfold play_turn
    rw [hc]
    simp only [hcheck]
  have hboard : (play_turn st cat p ans).board = setAnswered st.board cat p := by
    rw [hpt]
    by_cases h : check_answer ans cell.answer = true
    · rw [if_pos h]
    · rw [if_neg h]
  refine ⟨⟨fun h => ?_, fun h => ?_⟩, ?_, fun cat2 p2 hne => ?_, ?_, ?_⟩
  · rw [hpt, if_pos h]
  · rw [hpt, if_neg (by rw [h]; exact Bool.false_ne_true)]
  · rw [hboard]
    exact lookupCell_setAnswered_same st.board cat p cell hc
  · rw [hboard]
    exact lookupCell_setAnswered_other st.board cat p cat2 p2 hne
  · rw [hboard]
    exact setAnswered_cats st.board cat p
  · rw [hboard]
    exact setAnswered_rowKeys st.board cat p

theorem play_turn_spec_witness :
    lookupCell demoState.board ("Science".toList) 100 = some demoCell ∧
    demoCell.answered = false ∧
    (((check_answer ("paris".toList) demoCell.answer = true →
        (play_turn demoState ("Science".toList) 100 ("paris".toList)).score =
          demoState.score + 100) ∧
      (check_answer ("paris".toList) demoCell.answer = false →
        (play_turn demoState ("Science".toList) 100 ("paris".toList)).score =
          demoState.score - 100)) ∧
     lookupCell (play_turn demoState ("Science".toList) 100 ("paris".toList)).board
        ("Science".toList) 100 =
       some { question := demoCell.question, answer := demoCell.answer, answered := true } ∧
     (∀ cat2 p2, ¬(cat2 = ("Science".toList) ∧ p2 = 100) →
       lookupCell (play_turn demoState ("Science".toList) 100 ("paris".toList)).board cat2 p2 =
         lookupCell demoState.board cat2 p2) ∧
     (play_turn demoState ("Science".toList) 100 ("paris".toList)).board.map Prod.fst =
       demoState.board.map Prod.fst ∧
     (play_turn demoState ("Science".toList) 100 ("paris".toList)).board.map
        (fun e => e.snd.map Prod.fst) =
       demoState.board.map (fun e => e.snd.map Prod.fst)) :=
  ⟨by decide, by decide,
   play_turn_spec demoState ("Science".toList) 100 ("paris".toList) demoCell
     (by decide) (by decide)⟩

end Jeopardy

namespace Jeopardy

/-- C6: board initialisation with a question source produces exactly one
cell per (category, points) pair — 25 cells in total, under the 5 fixed
categories — each holding the question and answer returned by the source
for that pair, with the answered flag false. -/
theorem initialize_board_spec (gen : List Char → Nat → QA) (cat : List Char) (p : Nat)
    (hc : cat ∈ categories) (hp : p ∈ points) :
    numCells (initialize_board gen) = 25 ∧
    (initialize_board gen).map Prod.fst = categories ∧
    lookupCell (initialize_board gen) cat p =
      some { question := (gen cat p).question, answer := (gen cat p).answer,
             answered := false } := by
  refine ⟨?_, ?_, ?_⟩
  · show ((categories.map _).map _).sum = 25
    rw [List.map_map]
    simp [Function.comp, categories, points]
  · unfold initialize_board
    rw [List.map_map]
    exact List.map_congr_left (fun c _ => rfl)
  · simp only [categories, List.mem_cons, List.not_mem_nil, or_false] at hc
    simp only [points, List.mem_cons, List.not_mem_nil, or_false] at hp
    rcases hc with rfl | rfl | rfl | rfl | rfl <;>
      rcases hp with rfl | rfl | rfl | rfl | rfl <;> rfl

theorem initialize_board_spec_witness :
    ("Science".toList ∈ categories) ∧ (100 ∈ points) ∧
    (numCells (initialize_board demoGen) = 25 ∧
     (initialize_board demoGen).map Prod.fst = categories ∧
     lookupCell (initialize_board demoGen) ("Science".toList) 100 =
       some { question := (demoGen ("Science".toList) 100).question,
              answer := (demoGen ("Science".toList) 100).answer, answered := false }) :=
  ⟨by decide, by decide,
   initialize_board_spec demoGen ("Science".toList) 100 (by decide) (by decide)⟩

end Jeopardy
